import Mathlib

/-!
Verification of the transaction-reliability layer of the TOKEN-MANGER
repository, as a shallow embedding of `src/lib/solana/transaction-utility.ts`
and `src/lib/solana/token-operations.ts`.

JS strings are modelled as Lean `String` (sequences of code points);
`String.prototype.includes` is `jsIncludes`, `slice(0, n)` is `jsSlice`,
`toLowerCase` is `jsToLower` (ASCII case folding, which is what the matched
patterns exercise).  External collaborators (the RPC connection, the wallet
adapter, the toast notification library, timers) are modelled as oracles:
each external call's outcome is drawn from an environment record, and every
externally observable action (network call, notification, delay) is recorded
in an event trace.
-/

set_option maxHeartbeats 1000000

/-- Character-list test: `needle` is a prefix of `hay`. -/
def isPrefixOfL : List Char → List Char → Bool
  | [], _ => true
  | _ :: _, [] => false
  | a :: as, b :: bs => a == b && isPrefixOfL as bs

/-- Character-list test: `needle` occurs contiguously inside `hay`. -/
def containsSubL : List Char → List Char → Bool
  | _, [] => true
  | [], _ :: _ => false
  | a :: t, n :: ns => isPrefixOfL (n :: ns) (a :: t) || containsSubL t (n :: ns)

/-- JS `hay.includes(needle)`. -/
def jsIncludes (hay needle : String) : Bool :=
  containsSubL hay.data needle.data

/-- ASCII lower-casing of one character (JS `toLowerCase` restricted to ASCII). -/
def asciiLower (c : Char) : Char :=
  if 'A' ≤ c && c ≤ 'Z' then Char.ofNat (c.toNat + 32) else c

/-- JS `s.toLowerCase()` (ASCII fragment). -/
def jsToLower (s : String) : String :=
  ⟨s.data.map asciiLower⟩

/-- JS `s.slice(0, n)`. -/
def jsSlice (s : String) (n : Nat) : String :=
  ⟨s.data.take n⟩

/--
Embedding of `getErrorMessage` (transaction-utility.ts lines 266-292).
The JS argument is an arbitrary error value; `none` models a falsy error and
`some message` models an error whose derived text (`error.message ||
error.toString()`) is `message`.
-/
def getErrorMessage : Option String → String
  | none => "Unknown error"
  | some message =>
    if jsIncludes message "block height exceeded" then
      "Transaction took too long to confirm. Please try again."
    else if jsIncludes message "blockhash not found" then
      "Transaction expired. Please try again."
    else if jsIncludes message "insufficient funds" then
      "Insufficient funds for transaction."
    else if jsIncludes message "rejected" then
      "Transaction rejected by user."
    else if jsIncludes message "user rejected" then
      "You declined the transaction. Please try again."
    else if jsIncludes message "already in use" then
      "This transaction was already processed."
    else if jsIncludes message "invalid account owner" then
      "Invalid account owner."
    else if jsIncludes (jsToLower message) "timeout" then
      "Network timeout. Solana may be congested, please try again."
    else
      "Transaction error: " ++ jsSlice message 100 ++
        (if 100 < message.length then "..." else "")

/--
The `errorMap` object literal of `getErrorForTransaction`
(transaction-utility.ts lines 299-326), in property-insertion order.
The object literal is modelled as a finite association list.
-/
def errorMap : List (String × String) :=
  [("Attempt to debit an account but found no record of a prior credit",
    "Insufficient funds for transaction"),
   ("insufficient funds",
    "Insufficient SOL balance to pay for transaction fees"),
   ("not the mint authority",
    "Your wallet is not the mint authority for this token"),
   ("already in use",
    "This token already exists. Use a different mint address."),
   ("Program failed to complete",
    "Transaction failed to process"),
   ("Transaction was not confirmed",
    "Transaction was not confirmed within the timeout period"),
   ("blockhash not found",
    "Transaction blockhash expired. Please try again."),
   ("RPC request error",
    "Network connection error. Please check your internet connection."),
   ("Token account does not exist",
    "Token account not found. It may need to be created first."),
   ("No token mint specified",
    "No token mint address was provided"),
   ("Invalid program id",
    "Invalid program ID used in the transaction"),
   ("nonce is stale",
    "Transaction nonce is stale. Please retry with a fresh nonce."),
   ("Signature verification failed",
    "Transaction signature verification failed. Please check your wallet connection.")]

/-- JS property lookup `map[key]` on the association list (own properties). -/
def lookupExact : List (String × String) → String → Option String
  | [], _ => none
  | (k, v) :: rest, msg => if msg == k then some v else lookupExact rest msg

/-- First rule of the table whose pattern occurs as a substring of `msg`. -/
def firstMatch : List (String × String) → String → Option String
  | [], _ => none
  | (k, v) :: rest, msg => if jsIncludes msg k then some v else firstMatch rest msg

/--
Embedding of `getErrorForTransaction` (transaction-utility.ts lines 297-350):
exact key lookup, then the partial-match loop over `Object.entries(errorMap)`,
then the extra `Attempt to load an invalid account` check, then the fallback.
-/
def getErrorForTransaction (rawMessage : String) : String :=
  match lookupExact errorMap rawMessage with
  | some v => v
  | none =>
    match firstMatch errorMap rawMessage with
    | some v => v
    | none =>
      if jsIncludes rawMessage "Attempt to load an invalid account" then
        "Invalid account specified in transaction. Please check all addresses."
      else
        "Transaction failed: " ++ rawMessage

/--
Modelled from the spec: the classifier as the spec describes it — a single
ordered table of (substring, message) rules where the first rule whose
substring occurs in the text wins, with the raw-text fallback.  Used as the
comparison point for the refinement claim about `getErrorForTransaction`.
-/
def classifierTableSpec : List (String × String) :=
  errorMap ++
    [("Attempt to load an invalid account",
      "Invalid account specified in transaction. Please check all addresses.")]

/-- Modelled from the spec: first-substring-match classification. -/
def classifySpec (msg : String) : String :=
  (firstMatch classifierTableSpec msg).getD ("Transaction failed: " ++ msg)

/-- No later key of the table contains an earlier key as a substring. -/
def noLaterContainsEarlier : List (String × String) → Bool
  | [] => true
  | (k, _) :: rest =>
    rest.all (fun q => !(jsIncludes q.1 k)) && noLaterContainsEarlier rest

/-- A validity window: `(blockhash, lastValidBlockHeight)`. -/
structure ValidityWindow where
  blockhash : String
  lastValidBlockHeight : Nat
deriving DecidableEq

/--
Outcome of the confirmation promise of one attempt
(`connection.confirmTransaction` raced against the `maxTimeout` timer):
the call resolved (with the reported `value.err`, stringified), the call
rejected with an error message, or the timer fired first.
-/
inductive ConfirmOutcome where
  | result (err : Option String)
  | threw (msg : String)
  | timedOut
deriving DecidableEq

/--
Oracle for the external calls one attempt of `sendTransactionWithRetry` can
make: the `getLatestBlockhash` outcome, the pre-send `wallet.publicKey`
re-check, the `wallet.sendTransaction` outcome, the confirmation outcome, and
the two `getSignatureStatus` fallbacks (`ok none` = response with null
`value`; `ok (some e)` = response whose `value.err` is `e`; `error` = the
lookup itself rejected).
-/
structure AttemptEnv where
  fetchOutcome : Except String ValidityWindow
  stillConnected : Bool
  sendOutcome : Except String String
  confirmOutcome : ConfirmOutcome
  statusAfterThrow : Except String (Option (Option String))
  statusAfterExpiry : Except String (Option (Option String))

/-- Externally observable actions, in program order. -/
inductive Event where
  | logAttempt (n maxRetries : Nat)
  | fetchWindow (commitment : String) (outcome : Except String ValidityWindow)
  | sendCall (window : ValidityWindow) (skipPreflight : Bool) (preflightCommitment : String)
  | confirmCall (signature : String) (window : ValidityWindow) (commitment : String)
  | statusCall (signature : String) (searchHistory : Bool)
  | sleepMs (ms : Nat)
  | backoffMs (ms : Nat)
  | toastLoading (id : Nat) (msg : String)
  | toastDismiss (id : Nat)
  | toastSuccess (msg : String)
  | toastError (msg : String)

/-- `SendTransactionOptions` after the destructuring defaults of lines 38-44. -/
structure SendTransactionOptions where
  maxRetries : Nat := 5
  skipPreflight : Bool := false
  preflightCommitment : String := "processed"
  confirmCommitment : String := "confirmed"
  maxTimeout : Nat := 180000

/-- Result of one attempt: either a confirmed signature or a thrown message,
together with the events of the attempt. -/
inductive AttemptResult where
  | success (signature : String) (evs : List Event)
  | failed (msg : String) (evs : List Event)

/-- Decision of the outer catch handler (lines 194-231). -/
inductive CatchDecision where
  | walletError
  | retry (delay : Nat)
  | terminal

/--
Classification done by the outer catch of `sendTransactionWithRetry`
(lines 199-222): wallet errors are terminal with a fixed toast; blockhash and
timeout errors retry with exponential backoff while attempts remain
(`n` is the just-failed attempt ordinal); everything else is terminal.
-/
def classifyCatch (m : String) (n maxRetries : Nat) : CatchDecision :=
  if jsIncludes m "Wallet is not connected" || jsIncludes m "Wallet disconnected" ||
      jsIncludes m "wallet adapter" then
    .walletError
  else if n < maxRetries &&
      (jsIncludes m "block height exceeded" || jsIncludes m "blockhash not found" ||
        jsIncludes m "invalid blockhash" || jsIncludes m "timeout") then
    .retry (min (1000 * 2 ^ (n - 1)) 8000)
  else
    .terminal

/--
The handler for a rejected confirmation promise (lines 162-193): on a window
expiry message, show a (handle-discarded) verification toast, wait 2000 ms and
re-check the signature status with history search; a found/ok status turns the
attempt into a success, anything else rethrows the original message.
`confirmToastId` is the handle of the `Confirming transaction` toast,
`nid` the next fresh toast id.
-/
def afterConfirmReject (e : AttemptEnv) (m sig : String) (evs : List Event)
    (confirmToastId nid : Nat) : AttemptResult × Nat :=
  if jsIncludes m "block height exceeded" || jsIncludes m "blockhash not found" then
    let evs1 := evs ++ [.toastLoading nid "Verifying transaction status...",
                        .sleepMs 2000, .statusCall sig true]
    match e.statusAfterExpiry with
    | .ok (some none) =>
      (.success sig (evs1 ++ [.toastDismiss confirmToastId,
        .toastSuccess "Transaction confirmed successfully!"]), nid + 1)
    | _ => (.failed m evs1, nid + 1)
  else
    (.failed m evs, nid)

/--
One iteration of the retry loop of `sendTransactionWithRetry`
(lines 60-193), up to but excluding the outer catch.  `n` is the attempt
ordinal (the value of `attempt` after the increment), `nid` the next fresh
toast id; the `loadingToast` handle is id 0.
-/
def runAttempt (e : AttemptEnv) (opts : SendTransactionOptions) (n nid : Nat) :
    AttemptResult × Nat :=
  let evs0 : List Event := [.logAttempt n opts.maxRetries]
  match e.fetchOutcome with
  | .error m => (.failed m (evs0 ++ [.fetchWindow "finalized" (.error m)]), nid)
  | .ok w =>
    let evs1 := evs0 ++ [.fetchWindow "finalized" (.ok w), .toastDismiss 0,
      .toastLoading nid ("Please approve transaction in your wallet (Attempt " ++
        toString n ++ "/" ++ toString opts.maxRetries ++ ")...")]
    let nid1 := nid + 1
    if !e.stillConnected then
      (.failed "Wallet disconnected. Please reconnect and try again." evs1, nid1)
    else
      match e.sendOutcome with
      | .error m =>
        (.failed m (evs1 ++ [.sendCall w opts.skipPreflight opts.preflightCommitment]), nid1)
      | .ok sig =>
        let evs2 := evs1 ++ [.sendCall w opts.skipPreflight opts.preflightCommitment,
          .toastDismiss 0, .toastLoading nid1 "Confirming transaction... Please wait.",
          .confirmCall sig w opts.confirmCommitment]
        let nid2 := nid1 + 1
        match e.confirmOutcome with
        | .result none =>
          (.success sig (evs2 ++ [.toastDismiss nid1,
            .toastSuccess "Transaction confirmed successfully!"]), nid2)
        | .result (some errTxt) =>
          afterConfirmReject e ("Transaction confirmed but failed: " ++ errTxt) sig
            evs2 nid1 nid2
        | .timedOut =>
          afterConfirmReject e "Transaction confirmation timeout" sig evs2 nid1 nid2
        | .threw m =>
          let evs3 := evs2 ++ [.statusCall sig true]
          match e.statusAfterThrow with
          | .ok (some none) =>
            (.success sig (evs3 ++ [.toastDismiss nid1,
              .toastSuccess "Transaction confirmed successfully!"]), nid2)
          | _ => afterConfirmReject e m sig evs3 nid1 nid2

/--
The `while (attempt < maxRetries && !success)` loop of
`sendTransactionWithRetry` plus the post-loop fall-through (lines 59-236).
`fuel` is `maxRetries - attempt` (structural recursion measure), `attempt`
the number of completed attempts, `nid` the next fresh toast id, `lastError`
the last recorded error message.
-/
def retryLoop (env : Nat → AttemptEnv) (opts : SendTransactionOptions) :
    Nat → Nat → Nat → Option String → Except String String × List Event
  | 0, _, _, lastError =>
    (.error (lastError.getD "Transaction failed for unknown reason"), [.toastDismiss 0])
  | fuel + 1, attempt, nid, _ =>
    let n := attempt + 1
    match runAttempt (env attempt) opts n nid with
    | (.success sig evs, _) => (.ok sig, evs)
    | (.failed m evs, nid1) =>
      match classifyCatch m n opts.maxRetries with
      | .walletError =>
        (.error m, evs ++ [.toastDismiss 0,
          .toastError "Wallet connection error. Please reconnect your wallet and try again."])
      | .terminal =>
        (.error m, evs ++ [.toastDismiss 0, .toastError (getErrorMessage (some m))])
      | .retry d =>
        let rest := retryLoop env opts fuel n (nid1 + 1) (some m)
        (rest.1, evs ++ [.toastDismiss 0,
          .toastLoading nid1 ("Transaction expired. Retrying with fresh blockhash (" ++
            toString n ++ "/" ++ toString opts.maxRetries ++ ")..."),
          .backoffMs d] ++ rest.2)

/-- Result and full event trace of one `sendTransactionWithRetry` invocation. -/
structure RunResult where
  result : Except String String
  trace : List Event

/--
Embedding of `sendTransactionWithRetry` (transaction-utility.ts lines 28-237).
`walletKey` is `wallet.publicKey` (`none` = null); toast id 0 is the
`loadingToast` handle of line 51.
-/
def sendTransactionWithRetry (env : Nat → AttemptEnv) (walletKey : Option String)
    (opts : SendTransactionOptions) : RunResult :=
  let evs0 : List Event := [.toastLoading 0 "Preparing transaction..."]
  match walletKey with
  | none =>
    ⟨.error "Wallet is not connected. Please connect your wallet and try again.",
     evs0 ++ [.toastDismiss 0]⟩
  | some _ =>
    let r := retryLoop env opts opts.maxRetries 0 1 none
    ⟨r.1, evs0 ++ r.2⟩

/-- Network calls: window fetches, sends, confirmations, status lookups. -/
def isNetworkEvent : Event → Bool
  | .fetchWindow _ _ => true
  | .sendCall _ _ _ => true
  | .confirmCall _ _ _ => true
  | .statusCall _ _ => true
  | _ => false

/-- Number of network calls in a trace. -/
def countNetwork (t : List Event) : Nat := (t.filter isNetworkEvent).length

/-- Validity-window fetch events. -/
def isFetchEvent : Event → Bool
  | .fetchWindow _ _ => true
  | _ => false

/-- Number of validity-window fetches in a trace. -/
def countFetch (t : List Event) : Nat := (t.filter isFetchEvent).length

/-- Send events. -/
def isSendEvent : Event → Bool
  | .sendCall _ _ _ => true
  | _ => false

/-- Number of sends in a trace. -/
def countSend (t : List Event) : Nat := (t.filter isSendEvent).length

/-- Attempt-start log events (the `Transaction attempt n/m` console line). -/
def isAttemptLog : Event → Bool
  | .logAttempt _ _ => true
  | _ => false

/-- Number of attempts started in a trace. -/
def countAttemptLog (t : List Event) : Nat := (t.filter isAttemptLog).length

/-- Status lookups with history search enabled. -/
def isStatusHistory : Event → Bool
  | .statusCall _ true => true
  | _ => false

/-- Number of history-searching status lookups in a trace. -/
def countStatusHistory (t : List Event) : Nat := (t.filter isStatusHistory).length

/-- The backoff delays of a trace, in order. -/
def backoffs : List Event → List Nat
  | [] => []
  | .backoffMs d :: rest => d :: backoffs rest
  | _ :: rest => backoffs rest

/-- Every window fetch of the trace requests the `finalized` commitment. -/
def fetchesFinalized (t : List Event) : Bool :=
  t.all (fun e => match e with
    | .fetchWindow c _ => c == "finalized"
    | _ => true)

/--
Every send of the trace is covered by the window delivered by the most recent
window fetch before it (so no attempt signs with a stale or reused window).
`cur` is the window delivered by the latest fetch seen so far.
-/
def windowsFresh : List Event → Option ValidityWindow → Bool
  | [], _ => true
  | .fetchWindow _ (.ok w) :: rest, _ => windowsFresh rest (some w)
  | .fetchWindow _ (.error _) :: rest, _ => windowsFresh rest none
  | .sendCall w _ _ :: rest, cur => decide (cur = some w) && windowsFresh rest cur
  | _ :: rest, cur => windowsFresh rest cur

/-- Every backoff of the trace is preceded by some attempt start.
`seen` records whether an attempt start has occurred yet. -/
def backoffsAfterLog : List Event → Bool → Bool
  | [], _ => true
  | .logAttempt _ _ :: rest, _ => backoffsAfterLog rest true
  | .backoffMs _ :: rest, seen => seen && backoffsAfterLog rest seen
  | _ :: rest, seen => backoffsAfterLog rest seen

/-- Handles of the progress (loading) toasts active after a trace, given the
initially active ones: shown handles are appended, dismissed ones removed. -/
def activeToasts : List Event → List Nat → List Nat
  | [], acc => acc
  | .toastLoading id _ :: rest, acc => activeToasts rest (acc ++ [id])
  | .toastDismiss id :: rest, acc => activeToasts rest (acc.erase id)
  | _ :: rest, acc => activeToasts rest acc

/-- Terminal notifications (success or error toasts) in a trace. -/
def isTerminalToast : Event → Bool
  | .toastSuccess _ => true
  | .toastError _ => true
  | _ => false

/-- Number of terminal notifications in a trace. -/
def countTerminalToasts (t : List Event) : Nat := (t.filter isTerminalToast).length

/-- The claimed exponential backoff before attempt `n + 1`
(base 1000 ms, multiplier 2, cap 8000 ms). -/
def expectedBackoff (n : Nat) : Nat := min (1000 * 2 ^ (n - 1)) 8000

/--
Outcome of the `Promise.race` of `sendTokenTransaction` (lines 409-418):
the confirmation resolved (its `value.err` is not inspected by this code
path), rejected with a message, or the `maxTimeout` timer won.
-/
inductive TokenConfirmOutcome where
  | resolved (err : Option String)
  | threw (msg : String)
  | timedOut
deriving DecidableEq

/-- Oracle for one iteration of the `sendTokenTransaction` loop. -/
structure TokenAttemptEnv where
  sendOutcome : Except String String
  confirmOutcome : TokenConfirmOutcome
  refetchOutcome : Except String ValidityWindow

/-- Option defaults of `sendTokenTransaction` (lines 368-374). -/
structure TokenSendOptions where
  maxRetries : Nat := 3
  skipPreflight : Bool := false
  preflightCommitment : String := "confirmed"
  confirmCommitment : String := "confirmed"
  maxTimeout : Nat := 60000

/--
The `while (attempt < maxRetries)` loop of `sendTokenTransaction`
(lines 394-456) together with the post-loop throw of line 459; errors escaping
the loop are returned as `.error` and classified by the caller.  `w` is the
currently bound validity window (refetched only on a `blockhash not found`
failure), `nid` the next fresh toast id; the `loadingToast` handle is id 0.
-/
def tokenLoop (env : Nat → TokenAttemptEnv) (opts : TokenSendOptions) :
    Nat → Nat → Nat → Option String → ValidityWindow →
    Except String String × List Event
  | 0, _, _, lastError, _ =>
    (.error (lastError.getD "Transaction failed after maximum retries"), [])
  | fuel + 1, attempt, nid, _, w =>
    let n := attempt + 1
    let e := env attempt
    let handleError := fun (m : String) (evs : List Event) =>
      if opts.maxRetries ≤ n then
        (Except.error m, evs)
      else if jsIncludes m "blockhash not found" then
        let evs1 := evs ++ [Event.fetchWindow opts.preflightCommitment e.refetchOutcome]
        match e.refetchOutcome with
        | .ok w1 =>
          let rest := tokenLoop env opts fuel n nid (some m) w1
          (rest.1, evs1 ++ rest.2)
        | .error m1 => (Except.error m1, evs1)
      else
        let rest := tokenLoop env opts fuel n nid (some m) w
        (rest.1, evs ++ [Event.backoffMs (1000 * n)] ++ rest.2)
    match e.sendOutcome with
    | .error m =>
      handleError m [.sendCall w opts.skipPreflight opts.preflightCommitment]
    | .ok sig =>
      let evs2 : List Event :=
        [.sendCall w opts.skipPreflight opts.preflightCommitment,
         .toastDismiss 0, .toastLoading nid "Confirming transaction...",
         .confirmCall sig w opts.confirmCommitment]
      match e.confirmOutcome with
      | .resolved _ => (.ok sig, evs2 ++ [.toastDismiss nid])
      | .timedOut =>
        (.ok sig, evs2 ++ [.toastDismiss nid,
          .toastLoading (nid + 1)
            "Transaction may have succeeded, but confirmation timed out. Please check explorer."])
      | .threw m =>
        if jsIncludes m "timeout" then
          (.ok sig, evs2 ++ [.toastDismiss nid,
            .toastLoading (nid + 1)
              "Transaction may have succeeded, but confirmation timed out. Please check explorer."])
        else
          handleError m (evs2 ++ [.toastDismiss nid])

/--
Embedding of `sendTokenTransaction` (transaction-utility.ts lines 355-469).
The validity window is fetched once before the loop, at the caller-chosen
`preflightCommitment`; an error escaping the loop is wrapped by
`getErrorForTransaction` in the outer catch (lines 460-469), while a failure
of the pre-loop fetch itself propagates unclassified.
-/
def sendTokenTransaction (fetch0 : Except String ValidityWindow)
    (env : Nat → TokenAttemptEnv) (opts : TokenSendOptions) : RunResult :=
  match fetch0 with
  | .error m => ⟨.error m, [.fetchWindow opts.preflightCommitment (.error m)]⟩
  | .ok w =>
    let evs0 : List Event := [.fetchWindow opts.preflightCommitment (.ok w),
      .toastLoading 0 "Processing transaction..."]
    let r := tokenLoop env opts opts.maxRetries 0 1 none w
    match r.1 with
    | .ok sig => ⟨.ok sig, evs0 ++ r.2⟩
    | .error m =>
      ⟨.error (getErrorForTransaction m), evs0 ++ r.2 ++ [.toastDismiss 0]⟩

/--
Oracle for the external calls of `getTokenBalance`
(token-operations.ts lines 307-346): the `new PublicKey(mintAddress)` parse,
the `getAssociatedTokenAddress` derivation, the `getAccountInfo` lookup
(`ok none` = account absent) and the `getTokenAccountBalance` lookup.
-/
structure TokenBalanceEnv where
  parseMint : Except String String
  getATA : Except String String
  getAccountInfo : Except String (Option String)
  getTokenAccountBalance : Except String Int

/--
Embedding of `getTokenBalance` (token-operations.ts lines 307-346): the inner
try swallows lookup failures into a balance of 0, the outer catch logs and
rethrows anything escaping it (the mint parse and the ATA derivation).
-/
def getTokenBalance (env : TokenBalanceEnv) : Except String Int :=
  match env.parseMint with
  | .error m => .error m
  | .ok _ =>
    match env.getATA with
    | .error m => .error m
    | .ok _ =>
      match env.getAccountInfo with
      | .error _ => .ok 0
      | .ok none => .ok 0
      | .ok (some _) =>
        match env.getTokenAccountBalance with
        | .error _ => .ok 0
        | .ok b => .ok b

/-- The events of an attempt result. -/
def AttemptResult.evs : AttemptResult → List Event
  | .success _ e => e
  | .failed _ e => e

/-- The window delivered by the latest fetch of a trace (state function of
`windowsFresh`). -/
def windowState : List Event → Option ValidityWindow → Option ValidityWindow
  | [], cur => cur
  | .fetchWindow _ (.ok w) :: rest, _ => windowState rest (some w)
  | .fetchWindow _ (.error _) :: rest, _ => windowState rest none
  | _ :: rest, cur => windowState rest cur

/-- Whether a trace contains an attempt start, given whether one was already
seen (state function of `backoffsAfterLog`). -/
def seenLog : List Event → Bool → Bool
  | [], s => s
  | .logAttempt _ _ :: rest, _ => seenLog rest true
  | _ :: rest, s => seenLog rest s

/-- Environment in which attempt 1 sends successfully, the confirmation call
rejects with a window-expiry fault, and the fallback status lookup finds the
transaction with no program error. -/
def envC2 : Nat → AttemptEnv := fun _ =>
  ⟨.ok ⟨"FwRpBh11", 1200⟩, true, .ok "sigC2",
   .threw "TransactionExpiredBlockheightExceededError: block height exceeded",
   .ok (some none), .ok none⟩

/-- Environment in which attempt 1 succeeds end to end. -/
def envC6 : Nat → AttemptEnv := fun _ =>
  ⟨.ok ⟨"G1Bh", 900⟩, true, .ok "sigC6", .result none, .ok none, .ok none⟩

/-- Token-loop environment: the first send rejects with a retryable
non-blockhash fault, the second attempt succeeds. -/
def tokenEnvC3 : Nat → TokenAttemptEnv := fun n =>
  if n = 0 then ⟨.error "Node is behind by 42 slots", .resolved none, .ok ⟨"H3", 5⟩⟩
  else ⟨.ok "sigT3", .resolved none, .ok ⟨"H3", 5⟩⟩

/-- Token-loop environment: every attempt succeeds immediately. -/
def tokenEnvC4 : Nat → TokenAttemptEnv := fun _ =>
  ⟨.ok "sigT4", .resolved none, .ok ⟨"W4", 30⟩⟩

/-- Token-loop environment: the first send rejects with a blockhash-expiry
fault, the second attempt succeeds after an immediate window refetch. -/
def tokenEnvC5 : Nat → TokenAttemptEnv := fun n =>
  if n = 0 then
    ⟨.error "failed to send transaction: blockhash not found", .resolved none,
     .ok ⟨"W5b", 20⟩⟩
  else ⟨.ok "sigT5", .resolved none, .ok ⟨"W5b", 20⟩⟩

/-- Balance environment: the mint parses, but the associated-token-address
derivation rejects (an off-curve owner), before any account lookup. -/
def balanceEnvC9 : TokenBalanceEnv :=
  ⟨.ok "9vNYmint", .error "TokenOwnerOffCurveError", .ok none, .ok 0⟩

/-! ### String and table lemmas -/

theorem isPrefixOfL_refl (l : List Char) : isPrefixOfL l l = true := by
  induction l with
  | nil => rfl
  | cons a as ih => simp [isPrefixOfL, ih]

theorem jsIncludes_self (s : String) : jsIncludes s s = true := by
  unfold jsIncludes
  cases h : s.data with
  | nil => rfl
  | cons a t => simp [containsSubL, isPrefixOfL_refl]

theorem lookupExact_mem : ∀ (t : List (String × String)) (msg v : String),
    lookupExact t msg = some v → ∃ p ∈ t, p.1 = msg ∧ p.2 = v := by
  intro t
  induction t with
  | nil => intro msg v h; simp [lookupExact] at h
  | cons kv rest ih =>
    intro msg v h
    obtain ⟨k, v1⟩ := kv
    by_cases hk : (msg == k) = true
    · have hmk : msg = k := eq_of_beq hk
      simp [lookupExact, hk] at h
      exact ⟨(k, v1), by simp, by simp [hmk], by simp [h]⟩
    · have hk2 : (msg == k) = false := by simpa using hk
      simp [lookupExact, hk2] at h
      obtain ⟨p, hp, h1, h2⟩ := ih msg v h
      exact ⟨p, by simp [hp], h1, h2⟩

theorem lookupExact_firstMatch : ∀ (t : List (String × String)) (msg v : String),
    noLaterContainsEarlier t = true → lookupExact t msg = some v →
    firstMatch t msg = some v := by
  intro t
  induction t with
  | nil => intro msg v _ h; simp [lookupExact] at h
  | cons kv rest ih =>
    intro msg v hnl h
    obtain ⟨k, v1⟩ := kv
    rw [noLaterContainsEarlier] at hnl
    rw [Bool.and_eq_true, List.all_eq_true] at hnl
    obtain ⟨hall, hrest⟩ := hnl
    by_cases hk : (msg == k) = true
    · have hmk : msg = k := eq_of_beq hk
      simp [lookupExact, hk] at h
      subst hmk
      simp [firstMatch, jsIncludes_self, h]
    · have hk2 : (msg == k) = false := by simpa using hk
      simp [lookupExact, hk2] at h
      obtain ⟨p, hp, hpe, _⟩ := lookupExact_mem rest msg v h
      have hinc : jsIncludes msg k = false := by
        have := hall p hp
        rw [Bool.not_eq_true'] at this
        rw [← hpe]
        exact this
      rw [firstMatch, hinc]
      simp only [Bool.false_eq_true, if_false]
      exact ih msg v hrest h

theorem firstMatch_append (t1 t2 : List (String × String)) (msg : String) :
    firstMatch (t1 ++ t2) msg =
      match firstMatch t1 msg with
      | some v => some v
      | none => firstMatch t2 msg := by
  induction t1 with
  | nil => simp [firstMatch]
  | cons kv rest ih =>
    obtain ⟨k, v⟩ := kv
    by_cases hk : jsIncludes msg k = true
    · simp [firstMatch, hk]
    · have hk2 : jsIncludes msg k = false := by simpa using hk
      simp [firstMatch, hk2, ih]

/--
C8: the error classifier is a pure function of the raw fault text: it agrees
with first-substring-match over the fixed ordered rule table
`classifierTableSpec` on every input (in particular the first matching rule
wins even when later rules would also match), and equal inputs give equal
outputs.
-/
theorem C8_classifier_is_ordered_first_match :
    (∀ msg, getErrorForTransaction msg = classifySpec msg) ∧
    (∀ a b : String, a = b → getErrorForTransaction a = getErrorForTransaction b) := by
  constructor
  · intro msg
    unfold getErrorForTransaction classifySpec classifierTableSpec
    rw [firstMatch_append]
    cases h : lookupExact errorMap msg with
    | some v =>
      have hfm := lookupExact_firstMatch errorMap msg v (by decide) h
      simp [hfm]
    | none =>
      cases h2 : firstMatch errorMap msg with
      | some v => simp
      | none =>
        simp only [firstMatch]
        by_cases hb : jsIncludes msg "Attempt to load an invalid account" = true
        · simp [hb]
        · have hb2 : jsIncludes msg "Attempt to load an invalid account" = false := by
            simpa using hb
          simp [hb2]
  · intro a b h
    rw [h]

/-- C8 witness: the equivalence and determinism evaluated at concrete inputs. -/
theorem C8_classifier_witness :
    getErrorForTransaction "custom program error: nonce is stale" =
      classifySpec "custom program error: nonce is stale" ∧
    getErrorForTransaction "already in use" = getErrorForTransaction "already in use" :=
  ⟨C8_classifier_is_ordered_first_match.1 "custom program error: nonce is stale",
   C8_classifier_is_ordered_first_match.2 "already in use" "already in use" rfl⟩

/--
C7: when the raw fault text matches none of the substring rules of
`getErrorMessage`, the generic fallback is returned, embedding the raw text
truncated to its first 100 characters, with an ellipsis exactly when the
original exceeds 100 characters; the embedded text is bounded by 100
characters.
-/
theorem C7_unknown_fallback_truncates (msg : String)
    (h1 : jsIncludes msg "block height exceeded" = false)
    (h2 : jsIncludes msg "blockhash not found" = false)
    (h3 : jsIncludes msg "insufficient funds" = false)
    (h4 : jsIncludes msg "rejected" = false)
    (h5 : jsIncludes msg "user rejected" = false)
    (h6 : jsIncludes msg "already in use" = false)
    (h7 : jsIncludes msg "invalid account owner" = false)
    (h8 : jsIncludes (jsToLower msg) "timeout" = false) :
    getErrorMessage (some msg) =
      "Transaction error: " ++ jsSlice msg 100 ++
        (if 100 < msg.length then "..." else "") ∧
    (jsSlice msg 100).length ≤ 100 := by
  constructor
  · simp [getErrorMessage, h1, h2, h3, h4, h5, h6, h7, h8]
  · show (String.mk (msg.data.take 100)).length ≤ 100
    have : (String.mk (msg.data.take 100)).length = (msg.data.take 100).length := rfl
    rw [this, List.length_take]
    exact Nat.min_le_left _ _

/-- C7 witness: the fallback evaluated at a concrete unclassified fault text. -/
theorem C7_unknown_fallback_witness :
    getErrorMessage (some "flux capacitor misaligned") =
      "Transaction error: " ++ jsSlice "flux capacitor misaligned" 100 ++
        (if 100 < ("flux capacitor misaligned" : String).length then "..." else "") ∧
    (jsSlice "flux capacitor misaligned" 100).length ≤ 100 :=
  C7_unknown_fallback_truncates "flux capacitor misaligned" (by decide) (by decide)
    (by decide) (by decide) (by decide) (by decide) (by decide) (by decide)

/-! ### Trace observer lemmas -/

theorem countFetch_append (a b : List Event) :
    countFetch (a ++ b) = countFetch a + countFetch b := by
  simp [countFetch, List.filter_append]

theorem countAttemptLog_append (a b : List Event) :
    countAttemptLog (a ++ b) = countAttemptLog a + countAttemptLog b := by
  simp [countAttemptLog, List.filter_append]

theorem fetchesFinalized_append (a b : List Event) :
    fetchesFinalized (a ++ b) = (fetchesFinalized a && fetchesFinalized b) := by
  simp [fetchesFinalized, List.all_append]

theorem backoffs_append (a b : List Event) :
    backoffs (a ++ b) = backoffs a ++ backoffs b := by
  induction a with
  | nil => simp [backoffs]
  | cons e rest ih => cases e <;> simp [backoffs, ih]

theorem windowsFresh_append (a b : List Event) (cur : Option ValidityWindow) :
    windowsFresh (a ++ b) cur =
      (windowsFresh a cur && windowsFresh b (windowState a cur)) := by
  induction a generalizing cur with
  | nil => simp [windowsFresh, windowState]
  | cons e rest ih =>
    cases e with
    | fetchWindow c oc => cases oc <;> simp [windowsFresh, windowState, ih]
    | sendCall w sp pc => simp [windowsFresh, windowState, ih, Bool.and_assoc]
    | logAttempt x y => simp [windowsFresh, windowState, ih]
    | confirmCall x y z => simp [windowsFresh, windowState, ih]
    | statusCall x y => simp [windowsFresh, windowState, ih]
    | sleepMs x => simp [windowsFresh, windowState, ih]
    | backoffMs x => simp [windowsFresh, windowState, ih]
    | toastLoading x y => simp [windowsFresh, windowState, ih]
    | toastDismiss x => simp [windowsFresh, windowState, ih]
    | toastSuccess x => simp [windowsFresh, windowState, ih]
    | toastError x => simp [windowsFresh, windowState, ih]

theorem seenLog_append (a b : List Event) (s : Bool) :
    seenLog (a ++ b) s = seenLog b (seenLog a s) := by
  induction a generalizing s with
  | nil => simp [seenLog]
  | cons e rest ih => cases e <;> simp [seenLog, ih]

theorem backoffsAfterLog_append (a b : List Event) (s : Bool) :
    backoffsAfterLog (a ++ b) s =
      (backoffsAfterLog a s && backoffsAfterLog b (seenLog a s)) := by
  induction a generalizing s with
  | nil => simp [backoffsAfterLog, seenLog]
  | cons e rest ih =>
    cases e with
    | backoffMs x => simp [backoffsAfterLog, seenLog, ih, Bool.and_assoc]
    | logAttempt x y => simp [backoffsAfterLog, seenLog, ih]
    | fetchWindow c oc => simp [backoffsAfterLog, seenLog, ih]
    | sendCall w sp pc => simp [backoffsAfterLog, seenLog, ih]
    | confirmCall x y z => simp [backoffsAfterLog, seenLog, ih]
    | statusCall x y => simp [backoffsAfterLog, seenLog, ih]
    | sleepMs x => simp [backoffsAfterLog, seenLog, ih]
    | toastLoading x y => simp [backoffsAfterLog, seenLog, ih]
    | toastDismiss x => simp [backoffsAfterLog, seenLog, ih]
    | toastSuccess x => simp [backoffsAfterLog, seenLog, ih]
    | toastError x => simp [backoffsAfterLog, seenLog, ih]

theorem backoffsAfterLog_of_no_backoff (t : List Event) (h : backoffs t = []) :
    ∀ b : Bool, backoffsAfterLog t b = true := by
  induction t with
  | nil => intro b; rfl
  | cons e rest ih =>
    intro b
    cases e with
    | backoffMs x => simp [backoffs] at h
    | logAttempt x y => exact ih (by simpa [backoffs] using h) true
    | fetchWindow c oc => exact ih (by simpa [backoffs] using h) b
    | sendCall w sp pc => exact ih (by simpa [backoffs] using h) b
    | confirmCall x y z => exact ih (by simpa [backoffs] using h) b
    | statusCall x y => exact ih (by simpa [backoffs] using h) b
    | sleepMs x => exact ih (by simpa [backoffs] using h) b
    | toastLoading x y => exact ih (by simpa [backoffs] using h) b
    | toastDismiss x => exact ih (by simpa [backoffs] using h) b
    | toastSuccess x => exact ih (by simpa [backoffs] using h) b
    | toastError x => exact ih (by simpa [backoffs] using h) b

/-! ### Engine invariants -/

theorem classifyCatch_retry_delay (m : String) (n mr d : Nat)
    (h : classifyCatch m n mr = .retry d) : d = expectedBackoff n := by
  unfold classifyCatch at h
  split at h
  · exact absurd h (by simp)
  · split at h
    · cases h
      rfl
    · exact absurd h (by simp)

theorem afterConfirmReject_evs (e : AttemptEnv) (m sig : String) (evs : List Event)
    (cid nid : Nat) :
    countFetch (afterConfirmReject e m sig evs cid nid).1.evs = countFetch evs ∧
    countAttemptLog (afterConfirmReject e m sig evs cid nid).1.evs = countAttemptLog evs ∧
    fetchesFinalized (afterConfirmReject e m sig evs cid nid).1.evs = fetchesFinalized evs ∧
    (∀ cur, windowsFresh (afterConfirmReject e m sig evs cid nid).1.evs cur =
      windowsFresh evs cur) ∧
    backoffs (afterConfirmReject e m sig evs cid nid).1.evs = backoffs evs ∧
    (∀ b, seenLog (afterConfirmReject e m sig evs cid nid).1.evs b = seenLog evs b) := by
  unfold afterConfirmReject
  split
  · split <;>
      simp [AttemptResult.evs, countFetch_append, countAttemptLog_append,
        fetchesFinalized_append, windowsFresh_append, backoffs_append, seenLog_append,
        countFetch, countAttemptLog, fetchesFinalized, windowsFresh, backoffs, seenLog,
        isFetchEvent, isAttemptLog]
  · simp [AttemptResult.evs]

theorem afterConfirmReject_evs_values (e : AttemptEnv) (m sig : String)
    (evs : List Event) (cid nid : Nat)
    (h1 : countFetch evs = 1) (h2 : countAttemptLog evs = 1)
    (h3 : fetchesFinalized evs = true) (h4 : ∀ cur, windowsFresh evs cur = true)
    (h5 : backoffs evs = []) (h6 : ∀ b, seenLog evs b = true) :
    countFetch (afterConfirmReject e m sig evs cid nid).1.evs = 1 ∧
    countAttemptLog (afterConfirmReject e m sig evs cid nid).1.evs = 1 ∧
    fetchesFinalized (afterConfirmReject e m sig evs cid nid).1.evs = true ∧
    (∀ cur, windowsFresh (afterConfirmReject e m sig evs cid nid).1.evs cur = true) ∧
    backoffs (afterConfirmReject e m sig evs cid nid).1.evs = [] ∧
    (∀ b, seenLog (afterConfirmReject e m sig evs cid nid).1.evs b = true) := by
  obtain ⟨a1, a2, a3, a4, a5, a6⟩ := afterConfirmReject_evs e m sig evs cid nid
  exact ⟨a1.trans h1, a2.trans h2, a3.trans h3, fun cur => (a4 cur).trans (h4 cur),
    a5.trans h5, fun b => (a6 b).trans (h6 b)⟩

theorem runAttempt_evs (e : AttemptEnv) (opts : SendTransactionOptions) (n nid : Nat) :
    countFetch (runAttempt e opts n nid).1.evs = 1 ∧
    countAttemptLog (runAttempt e opts n nid).1.evs = 1 ∧
    fetchesFinalized (runAttempt e opts n nid).1.evs = true ∧
    (∀ cur, windowsFresh (runAttempt e opts n nid).1.evs cur = true) ∧
    backoffs (runAttempt e opts n nid).1.evs = [] ∧
    (∀ b, seenLog (runAttempt e opts n nid).1.evs b = true) := by
  obtain ⟨fo, sc, so, co, st1, st2⟩ := e
  cases fo with
  | error m =>
    simp [runAttempt, AttemptResult.evs, countFetch, countAttemptLog, fetchesFinalized,
      windowsFresh, backoffs, seenLog, isFetchEvent, isAttemptLog]
  | ok w =>
    cases sc with
    | false =>
      simp [runAttempt, AttemptResult.evs, countFetch, countAttemptLog, fetchesFinalized,
        windowsFresh, backoffs, seenLog, isFetchEvent, isAttemptLog]
    | true =>
      cases so with
      | error m =>
        simp [runAttempt, AttemptResult.evs, countFetch, countAttemptLog, fetchesFinalized,
          windowsFresh, backoffs, seenLog, isFetchEvent, isAttemptLog]
      | ok sig =>
        cases co with
        | result err =>
          cases err with
          | none =>
            simp [runAttempt, AttemptResult.evs, countFetch, countAttemptLog,
              fetchesFinalized, windowsFresh, backoffs, seenLog, isFetchEvent, isAttemptLog]
          | some errTxt =>
            simp only [runAttempt, Bool.not_true, Bool.false_eq_true, if_false]
            refine afterConfirmReject_evs_values _ _ _ _ _ _ ?_ ?_ ?_ ?_ ?_ ?_
            · simp [countFetch, isFetchEvent]
            · simp [countAttemptLog, isAttemptLog]
            · simp [fetchesFinalized]
            · intro cur; simp [windowsFresh]
            · simp [backoffs]
            · intro b; simp [seenLog]
        | timedOut =>
          simp only [runAttempt, Bool.not_true, Bool.false_eq_true, if_false]
          refine afterConfirmReject_evs_values _ _ _ _ _ _ ?_ ?_ ?_ ?_ ?_ ?_
          · simp [countFetch, isFetchEvent]
          · simp [countAttemptLog, isAttemptLog]
          · simp [fetchesFinalized]
          · intro cur; simp [windowsFresh]
          · simp [backoffs]
          · intro b; simp [seenLog]
        | threw m =>
          cases st1 with
          | error m1 =>
            simp only [runAttempt, Bool.not_true, Bool.false_eq_true, if_false]
            refine afterConfirmReject_evs_values _ _ _ _ _ _ ?_ ?_ ?_ ?_ ?_ ?_
            · simp [countFetch, isFetchEvent]
            · simp [countAttemptLog, isAttemptLog]
            · simp [fetchesFinalized]
            · intro cur; simp [windowsFresh]
            · simp [backoffs]
            · intro b; simp [seenLog]
          | ok s1 =>
            cases s1 with
            | none =>
              simp only [runAttempt, Bool.not_true, Bool.false_eq_true, if_false]
              refine afterConfirmReject_evs_values _ _ _ _ _ _ ?_ ?_ ?_ ?_ ?_ ?_
              · simp [countFetch, isFetchEvent]
              · simp [countAttemptLog, isAttemptLog]
              · simp [fetchesFinalized]
              · intro cur; simp [windowsFresh]
              · simp [backoffs]
              · intro b; simp [seenLog]
            | some s2 =>
              cases s2 with
              | none =>
                simp [runAttempt, AttemptResult.evs, countFetch, countAttemptLog,
                  fetchesFinalized, windowsFresh, backoffs, seenLog, isFetchEvent,
                  isAttemptLog]
              | some e2 =>
                simp only [runAttempt, Bool.not_true, Bool.false_eq_true, if_false]
                refine afterConfirmReject_evs_values _ _ _ _ _ _ ?_ ?_ ?_ ?_ ?_ ?_
                · simp [countFetch, isFetchEvent]
                · simp [countAttemptLog, isAttemptLog]
                · simp [fetchesFinalized]
                · intro cur; simp [windowsFresh]
                · simp [backoffs]
                · intro b; simp [seenLog]

theorem retryLoop_inv (env : Nat → AttemptEnv) (opts : SendTransactionOptions) :
    ∀ (fuel attempt nid : Nat) (le : Option String),
    countFetch (retryLoop env opts fuel attempt nid le).2 =
      countAttemptLog (retryLoop env opts fuel attempt nid le).2 ∧
    fetchesFinalized (retryLoop env opts fuel attempt nid le).2 = true ∧
    (∀ cur, windowsFresh (retryLoop env opts fuel attempt nid le).2 cur = true) ∧
    (∃ k, backoffs (retryLoop env opts fuel attempt nid le).2 =
      (List.range' (attempt + 1) k).map expectedBackoff) ∧
    (∀ b, backoffsAfterLog (retryLoop env opts fuel attempt nid le).2 b = true) := by
  intro fuel
  induction fuel with
  | zero =>
    intro attempt nid le
    exact ⟨rfl, rfl, fun cur => rfl, ⟨0, rfl⟩, fun b => rfl⟩
  | succ fuel ih =>
    intro attempt nid le
    rcases hres : runAttempt (env attempt) opts (attempt + 1) nid with ⟨res, nid1⟩
    have hra := runAttempt_evs (env attempt) opts (attempt + 1) nid
    rw [hres] at hra
    cases res with
    | success sig evs =>
      simp only [AttemptResult.evs] at hra
      obtain ⟨r1, r2, r3, r4, r5, r6⟩ := hra
      simp only [retryLoop, hres]
      exact ⟨r1.trans r2.symm, r3, r4, ⟨0, by simp [r5]⟩,
        fun b => backoffsAfterLog_of_no_backoff evs r5 b⟩
    | failed m evs =>
      simp only [AttemptResult.evs] at hra
      obtain ⟨r1, r2, r3, r4, r5, r6⟩ := hra
      simp only [retryLoop, hres]
      cases hcc : classifyCatch m (attempt + 1) opts.maxRetries with
      | walletError =>
        refine ⟨?_, ?_, ?_, ⟨0, ?_⟩, ?_⟩
        · rw [countFetch_append, countAttemptLog_append, r1, r2]
          rfl
        · rw [fetchesFinalized_append, r3]
          rfl
        · intro cur
          rw [windowsFresh_append, r4 cur]
          rfl
        · rw [backoffs_append, r5]
          rfl
        · intro b
          rw [backoffsAfterLog_append, backoffsAfterLog_of_no_backoff evs r5 b]
          rfl
      | terminal =>
        refine ⟨?_, ?_, ?_, ⟨0, ?_⟩, ?_⟩
        · rw [countFetch_append, countAttemptLog_append, r1, r2]
          rfl
        · rw [fetchesFinalized_append, r3]
          rfl
        · intro cur
          rw [windowsFresh_append, r4 cur]
          rfl
        · rw [backoffs_append, r5]
          rfl
        · intro b
          rw [backoffsAfterLog_append, backoffsAfterLog_of_no_backoff evs r5 b]
          rfl
      | retry d =>
        have hd : d = expectedBackoff (attempt + 1) :=
          classifyCatch_retry_delay m (attempt + 1) opts.maxRetries d hcc
        obtain ⟨i1, i2, i3, i4, i5⟩ := ih (attempt + 1) (nid1 + 1) (some m)
        refine ⟨?_, ?_, ?_, ?_, ?_⟩
        · rw [countFetch_append, countFetch_append, countAttemptLog_append,
            countAttemptLog_append, r1, r2, i1]
          rfl
        · rw [fetchesFinalized_append, fetchesFinalized_append, r3, i2]
          rfl
        · intro cur
          rw [windowsFresh_append, windowsFresh_append, r4 cur, i3]
          rfl
        · obtain ⟨k, hk⟩ := i4
          refine ⟨k + 1, ?_⟩
          rw [backoffs_append, backoffs_append, r5, hk, hd]
          rfl
        · intro b
          rw [backoffsAfterLog_append, backoffsAfterLog_append,
            backoffsAfterLog_of_no_backoff evs r5 b, r6 b, i5]
          rfl

theorem expectedBackoff_mono (s : Nat) :
    expectedBackoff s ≤ expectedBackoff (s + 1) := by
  unfold expectedBackoff
  refine min_le_min ?_ (le_refl 8000)
  exact Nat.mul_le_mul_left 1000 (Nat.pow_le_pow_right (by norm_num) (by omega))

theorem chain_expectedBackoff : ∀ (k s : Nat),
    List.Chain' (fun a b => a ≤ b) ((List.range' s k).map expectedBackoff) := by
  intro k
  induction k with
  | zero => intro s; simp
  | succ k ih =>
    intro s
    cases k with
    | zero => simp
    | succ k2 =>
      rw [show List.range' s (k2 + 1 + 1) = s :: List.range' (s + 1) (k2 + 1) from rfl,
        List.map_cons,
        show List.range' (s + 1) (k2 + 1) = (s + 1) :: List.range' (s + 2) k2 from rfl,
        List.map_cons, List.chain'_cons]
      exact ⟨expectedBackoff_mono s, ih (s + 1)⟩

/-! ### Claim theorems about the submission engine -/

/--
C1: when `wallet.publicKey` is absent at call time, `sendTransactionWithRetry`
fails immediately with the wallet-not-connected error, its trace is just the
preparing toast and its dismissal (zero network calls: no window fetch, no
send, no confirmation, no status lookup), and no attempt is started.
-/
theorem C1_wallet_absent_no_network (env : Nat → AttemptEnv)
    (opts : SendTransactionOptions) :
    (sendTransactionWithRetry env none opts).result =
      .error "Wallet is not connected. Please connect your wallet and try again." ∧
    (sendTransactionWithRetry env none opts).trace =
      [.toastLoading 0 "Preparing transaction...", .toastDismiss 0] ∧
    countNetwork (sendTransactionWithRetry env none opts).trace = 0 ∧
    countAttemptLog (sendTransactionWithRetry env none opts).trace = 0 :=
  ⟨rfl, rfl, rfl, rfl⟩

/--
C3 (amended): in `sendTransactionWithRetry` every run performs exactly as many
validity-window fetches as attempts started, and every send uses the window
delivered by that attempt's own fetch (never a reused one).  The claim's
universal statement over all submissions is refuted for `sendTokenTransaction`
by the corresponding counterexample run below.
-/
theorem C3_amended_window_fetch_per_attempt (env : Nat → AttemptEnv)
    (wk : Option String) (opts : SendTransactionOptions) :
    countFetch (sendTransactionWithRetry env wk opts).trace =
      countAttemptLog (sendTransactionWithRetry env wk opts).trace ∧
    windowsFresh (sendTransactionWithRetry env wk opts).trace none = true := by
  cases wk with
  | none => exact ⟨rfl, rfl⟩
  | some pk =>
    obtain ⟨i1, i2, i3, i4, i5⟩ := retryLoop_inv env opts opts.maxRetries 0 1 none
    simp only [sendTransactionWithRetry]
    constructor
    · rw [countFetch_append, countAttemptLog_append, i1]
      rfl
    · rw [windowsFresh_append, i3]
      rfl

/--
C3 counterexample: a `sendTokenTransaction` run in which the first send fails
with a retryable non-blockhash fault makes two attempts (two sends) but only
one validity-window fetch, so the second attempt reuses the first window and
the fetch count differs from the attempt count.
-/
theorem C3_counterexample_token_window_reuse :
    countSend (sendTokenTransaction (.ok ⟨"W0", 10⟩) tokenEnvC3 {}).trace = 2 ∧
    countFetch (sendTokenTransaction (.ok ⟨"W0", 10⟩) tokenEnvC3 {}).trace = 1 ∧
    countFetch (sendTokenTransaction (.ok ⟨"W0", 10⟩) tokenEnvC3 {}).trace ≠
      countSend (sendTokenTransaction (.ok ⟨"W0", 10⟩) tokenEnvC3 {}).trace := by
  decide

/--
C4 (amended): every validity-window fetch issued by `sendTransactionWithRetry`
requests the `finalized` commitment, whatever the caller's preflight or
confirm commitment options; the claim's universal statement over all fetches
is refuted for `sendTokenTransaction` by the corresponding counterexample run
below.
-/
theorem C4_amended_finalized_fetches (env : Nat → AttemptEnv)
    (wk : Option String) (opts : SendTransactionOptions) :
    fetchesFinalized (sendTransactionWithRetry env wk opts).trace = true := by
  cases wk with
  | none => rfl
  | some pk =>
    obtain ⟨i1, i2, i3, i4, i5⟩ := retryLoop_inv env opts opts.maxRetries 0 1 none
    simp only [sendTransactionWithRetry]
    rw [fetchesFinalized_append, i2]
    rfl

/--
C4 counterexample: a `sendTokenTransaction` run performs its only
validity-window fetch at the caller's `preflightCommitment` (default
`confirmed`), not at `finalized`.
-/
theorem C4_counterexample_token_fetch_commitment :
    countFetch (sendTokenTransaction (.ok ⟨"W4", 30⟩) tokenEnvC4 {}).trace = 1 ∧
    fetchesFinalized (sendTokenTransaction (.ok ⟨"W4", 30⟩) tokenEnvC4 {}).trace = false := by
  decide

/--
C5 (amended): in `sendTransactionWithRetry` the backoff delays of a run form a
prefix of the sequence `min(1000 * 2 ^ (n - 2), 8000)` for attempts
n = 2, 3, ... (base 1000 ms, multiplier 2, cap 8000 ms — within the claimed
1.5-2x multiplier and 8000-10000 ms cap ranges), the delays are monotonically
non-decreasing, and no backoff occurs before the first attempt starts.  The
claim's universal statement over every retryable failure is refuted for
`sendTokenTransaction`, which can retry with no backoff at all (see the
corresponding counterexample run below).
-/
theorem C5_amended_exponential_backoff (env : Nat → AttemptEnv)
    (wk : Option String) (opts : SendTransactionOptions) :
    (∃ k, backoffs (sendTransactionWithRetry env wk opts).trace =
      (List.range' 1 k).map expectedBackoff) ∧
    List.Chain' (fun a b => a ≤ b) (backoffs (sendTransactionWithRetry env wk opts).trace) ∧
    backoffsAfterLog (sendTransactionWithRetry env wk opts).trace false = true := by
  cases wk with
  | none => exact ⟨⟨0, rfl⟩, List.chain'_nil, rfl⟩
  | some pk =>
    obtain ⟨i1, i2, i3, i4, i5⟩ := retryLoop_inv env opts opts.maxRetries 0 1 none
    obtain ⟨k, hk⟩ := i4
    simp only [sendTransactionWithRetry]
    have hb : backoffs ([Event.toastLoading 0 "Preparing transaction..."] ++
        (retryLoop env opts opts.maxRetries 0 1 none).2) =
        (List.range' 1 k).map expectedBackoff := by
      rw [backoffs_append, hk]
      rfl
    refine ⟨⟨k, hb⟩, ?_, ?_⟩
    · rw [hb]
      exact chain_expectedBackoff k 1
    · rw [backoffsAfterLog_append, i5]
      rfl

/--
C5 counterexample: a `sendTokenTransaction` run whose first send fails with a
blockhash-expiry fault makes a second attempt with no backoff delay at all,
whereas the claimed formula requires a 1000 ms delay before attempt 2.
-/
theorem C5_counterexample_token_zero_backoff :
    countSend (sendTokenTransaction (.ok ⟨"A1", 1⟩) tokenEnvC5 {}).trace = 2 ∧
    backoffs (sendTokenTransaction (.ok ⟨"A1", 1⟩) tokenEnvC5 {}).trace = [] := by
  decide

/--
C6: the progress-notification discipline is violated by the code.  On a
submission whose first attempt succeeds, after the confirming toast is shown
two progress toasts are active at once (the approval toast of line 82, whose
handle is discarded, is never dismissed — lines 98 and 218 re-dismiss the
already-dismissed `loadingToast` handle instead); and a submission rejected
for a missing wallet emits no terminal notification at all.
-/
theorem C6_progress_toast_invariant_violated :
    (activeToasts ((sendTransactionWithRetry envC6 (some "walletPk") {}).trace.take 8)
      []).length = 2 ∧
    countTerminalToasts (sendTransactionWithRetry envC6 none {}).trace = 0 := by
  decide

/--
C2: on any attempt in which the send succeeds and the confirmation call
rejects (with any fault, window expiry included) but the fallback
`getSignatureStatus` lookup with history search finds the transaction with no
program error, the confirmation resolves as confirmed-ok: the loop returns the
signature of that same attempt, having performed exactly one window fetch, one
send and one history-searching status lookup and no backoff (no further
retries); consequently, when this is the first attempt, `submit` itself
returns that signature.
-/
theorem C2_confirm_fallback_reconciles (env : Nat → AttemptEnv)
    (opts : SendTransactionOptions) (attempt nid fuel : Nat) (le : Option String)
    (w : ValidityWindow) (sig m : String)
    (hf : (env attempt).fetchOutcome = .ok w)
    (hc : (env attempt).stillConnected = true)
    (hs : (env attempt).sendOutcome = .ok sig)
    (hco : (env attempt).confirmOutcome = .threw m)
    (hst : (env attempt).statusAfterThrow = .ok (some none)) :
    (retryLoop env opts (fuel + 1) attempt nid le).1 = .ok sig ∧
    countFetch (retryLoop env opts (fuel + 1) attempt nid le).2 = 1 ∧
    countSend (retryLoop env opts (fuel + 1) attempt nid le).2 = 1 ∧
    countStatusHistory (retryLoop env opts (fuel + 1) attempt nid le).2 = 1 ∧
    backoffs (retryLoop env opts (fuel + 1) attempt nid le).2 = [] ∧
    (∀ pk : String, 1 ≤ opts.maxRetries → attempt = 0 →
      (sendTransactionWithRetry env (some pk) opts).result = .ok sig) := by
  have key : ∀ (fuel2 nid2 : Nat) (le2 : Option String),
      (retryLoop env opts (fuel2 + 1) attempt nid2 le2).1 = .ok sig ∧
      countFetch (retryLoop env opts (fuel2 + 1) attempt nid2 le2).2 = 1 ∧
      countSend (retryLoop env opts (fuel2 + 1) attempt nid2 le2).2 = 1 ∧
      countStatusHistory (retryLoop env opts (fuel2 + 1) attempt nid2 le2).2 = 1 ∧
      backoffs (retryLoop env opts (fuel2 + 1) attempt nid2 le2).2 = [] := by
    intro fuel2 nid2 le2
    simp only [retryLoop, runAttempt, hf, hc, hs, hco, hst, Bool.not_true,
      Bool.false_eq_true, if_false]
    refine ⟨?_, ?_, ?_, ?_, ?_⟩ <;> trivial
  obtain ⟨k1, k2, k3, k4, k5⟩ := key fuel nid le
  refine ⟨k1, k2, k3, k4, k5, ?_⟩
  intro pk h1 h0
  subst h0
  obtain ⟨f2, hf2⟩ : ∃ f2, opts.maxRetries = f2 + 1 := ⟨opts.maxRetries - 1, by omega⟩
  simp only [sendTransactionWithRetry, hf2]
  exact (key f2 1 none).1

/--
C2 witness: the fallback reconciliation evaluated in a concrete environment
whose confirmation call rejects with a block-height-exceeded fault while the
status lookup reports found/ok.
-/
theorem C2_confirm_fallback_witness :
    (retryLoop envC2 {} 5 0 1 none).1 = .ok "sigC2" ∧
    (sendTransactionWithRetry envC2 (some "7xKXtg2C") {}).result = .ok "sigC2" :=
  ⟨(C2_confirm_fallback_reconciles envC2 {} 0 1 4 none ⟨"FwRpBh11", 1200⟩ "sigC2"
      "TransactionExpiredBlockheightExceededError: block height exceeded"
      rfl rfl rfl rfl rfl).1,
   (C2_confirm_fallback_reconciles envC2 {} 0 1 4 none ⟨"FwRpBh11", 1200⟩ "sigC2"
      "TransactionExpiredBlockheightExceededError: block height exceeded"
      rfl rfl rfl rfl rfl).2.2.2.2.2 "7xKXtg2C" (by decide) rfl⟩

/--
C9 (amended): `getTokenBalance` returns 0 (rather than propagating an error)
whenever the account-info lookup reports the associated token account absent,
the account-info lookup itself throws, or the balance lookup throws; and it
fails only when the mint-address parse or the associated-token-address
derivation fails (the claim named only the mint parse; the ATA derivation is
awaited outside the inner try and its rejection also propagates, as the
corresponding counterexample below shows).
-/
theorem C9_amended_balance_error_containment (env : TokenBalanceEnv) :
    (∀ pm ata, env.parseMint = .ok pm → env.getATA = .ok ata →
      (env.getAccountInfo = .ok none ∨ (∃ m, env.getAccountInfo = .error m) ∨
        (∃ m, env.getTokenAccountBalance = .error m)) →
      getTokenBalance env = .ok 0) ∧
    (∀ e, getTokenBalance env = .error e →
      env.parseMint = .error e ∨ env.getATA = .error e) := by
  constructor
  · intro pm ata hp ha hcase
    rcases hcase with h | ⟨m, h⟩ | ⟨m, h⟩
    · simp [getTokenBalance, hp, ha, h]
    · simp [getTokenBalance, hp, ha, h]
    · cases hai : env.getAccountInfo with
      | error m2 => simp [getTokenBalance, hp, ha, hai]
      | ok o =>
        cases o with
        | none => simp [getTokenBalance, hp, ha, hai]
        | some s => simp [getTokenBalance, hp, ha, hai, h]
  · intro e he
    unfold getTokenBalance at he
    cases hp : env.parseMint with
    | error m =>
      rw [hp] at he
      simp at he
      subst he
      exact Or.inl rfl
    | ok pm2 =>
      rw [hp] at he
      cases ha : env.getATA with
      | error m =>
        rw [ha] at he
        simp at he
        subst he
        exact Or.inr rfl
      | ok a2 =>
        rw [ha] at he
        cases hai : env.getAccountInfo with
        | error m2 => rw [hai] at he; simp at he
        | ok o =>
          cases o with
          | none => rw [hai] at he; simp at he
          | some s =>
            rw [hai] at he
            cases hb : env.getTokenAccountBalance with
            | error m3 => rw [hb] at he; simp at he
            | ok b2 => rw [hb] at he; simp at he

/--
C9 witness: a run in which the mint parses, the ATA derivation succeeds and
the associated account is absent returns a balance of 0.
-/
theorem C9_amended_balance_witness :
    getTokenBalance ⟨.ok "mintOk", .ok "ataOk", .ok none, .ok 7⟩ = .ok 0 :=
  (C9_amended_balance_error_containment ⟨.ok "mintOk", .ok "ataOk", .ok none, .ok 7⟩).1
    "mintOk" "ataOk" rfl rfl (Or.inl rfl)

/--
C9 counterexample: when the associated-token-address derivation rejects (the
`spl-token` helper throws for an off-curve owner) the error propagates out of
`getTokenBalance` even though the mint address parsed successfully, refuting
the claim that it only fails when the mint address cannot be parsed.
-/
theorem C9_counterexample_ata_failure :
    getTokenBalance balanceEnvC9 = .error "TokenOwnerOffCurveError" ∧
    balanceEnvC9.parseMint = .ok "9vNYmint" :=
  ⟨rfl, rfl⟩
